import Mathlib

/-!
Verification of the actors-seat-map reservation pipeline.

The Go source keeps all mutable state in an `InventoryActor` (three Go maps:
tickets, events, baskets) that is mutated only by `ReserveTicket`, which runs
under a mutex, so every concurrent execution is equivalent to some sequential
interleaving of whole `ReserveTicket` calls.  Go maps are modelled as
association lists with last-write-wins insertion (`insertA`) and first-match
lookup (`lookupA`); Go's `time.Now()` is threaded through as an explicit `now`
argument; a Go `nil` slice is the empty list.
-/

namespace SeatMap

/-- Lookup in an association list modelling a Go map read `m[k]` (with the
`ok` bit as `Option`). -/
def lookupA {α : Type} (k : String) : List (String × α) → Option α
  | [] => none
  | (k', v) :: t => if k' = k then some v else lookupA k t

/-- Insertion modelling a Go map write `m[k] = v`: replaces an existing
binding in place, otherwise appends a fresh one. -/
def insertA {α : Type} (k : String) (v : α) : List (String × α) → List (String × α)
  | [] => [(k, v)]
  | (k', v') :: t => if k' = k then (k, v) :: t else (k', v') :: insertA k v t

/-- The key set of a modelled Go map. -/
def keysA {α : Type} (l : List (String × α)) : List String := l.map Prod.fst

/-- Go struct `Ticket` (main.go lines 15-22); `ReservedAt` is an abstract
timestamp. -/
structure Ticket where
  ID : String
  UserID : String
  Status : String
  SeatID : String
  EventID : String
  ReservedAt : Nat
deriving DecidableEq, Repr

/-- Go struct `Seat` (main.go lines 24-29); the seat-number field is called
`Seat` in the source. -/
structure Seat where
  ID : String
  Row : String
  Seat : Nat
  Status : String
deriving DecidableEq, Repr

/-- Go struct `Event` (main.go lines 31-35). -/
structure Event where
  ID : String
  Name : String
  Seats : List (String × Seat)
deriving DecidableEq, Repr

/-- Go struct `ReservationRequest` (main.go lines 37-41). -/
structure ReservationRequest where
  UserID : String
  EventID : String
  SeatIDs : List String
deriving DecidableEq, Repr

/-- The mutable state of the Go `InventoryActor` (main.go lines 53-58);
the mutex is represented by treating each call as one atomic step. -/
structure InventoryActor where
  tickets : List (String × Ticket)
  events : List (String × Event)
  baskets : List (String × List Ticket)
deriving DecidableEq, Repr

/-- Go's `fmt.Sprintf("%02d", n)` for the seat numbers 1..10 used by the
seed loop (main.go line 158). -/
def pad2 (n : Nat) : String := if n < 10 then "0" ++ toString n else toString n

/-- The row labels of the seed loop (main.go line 155). -/
def seededRows : List String := ["A", "B", "C", "D", "E"]

/-- Inner seed loop (main.go lines 157-167): ten seats for one row. -/
def seatsForRow (row : String) (m : List (String × Seat)) : List (String × Seat) :=
  (List.range 10).foldl (fun m i =>
    let seat : Seat :=
      { ID := "seat-" ++ row ++ "-" ++ pad2 (i + 1), Row := row, Seat := i + 1,
        Status := "Available" }
    insertA seat.ID seat m) m

/-- The seeded seat map (main.go lines 154-168). -/
def seededSeats : List (String × Seat) :=
  seededRows.foldl (fun m row => seatsForRow row m) []

/-- The seeded event (main.go lines 148-152). -/
def seededEvent : Event := { ID := "event_1", Name := "Event 1", Seats := seededSeats }

/-- `NewInventoryActor` (main.go lines 141-174): empty tickets and baskets,
one seeded event. -/
def NewInventoryActor : InventoryActor :=
  { tickets := [], events := insertA seededEvent.ID seededEvent [], baskets := [] }

/-- The zero value of the Go `Seat` struct, produced by a map read on a
missing key. -/
def zeroSeat : Seat := { ID := "", Row := "", Seat := 0, Status := "" }

/-- The zero value of the Go `Event` struct. -/
def zeroEvent : Event := { ID := "", Name := "", Seats := [] }

/-- The validation pass of `ReserveTicket` (main.go lines 185-189): every
requested seat id must exist in the event and be `Available`. -/
def seatCheck (event : Event) (seatIDs : List String) : Bool :=
  seatIDs.all fun seatID =>
    match lookupA seatID event.Seats with
    | some seat => seat.Status == "Available"
    | none => false

/-- The mutation pass of `ReserveTicket` (main.go lines 194-209): for each
seat id in order, re-read the seat, set its status to `Reserved`, write it
back, mint a ticket keyed by the seat's `ID` field and append it to the
batch. -/
def reserveLoop (userID eventID : String) (now : Nat) :
    List String → Event → List (String × Ticket) → List Ticket →
    Event × List (String × Ticket) × List Ticket
  | [], event, tks, acc => (event, tks, acc)
  | seatID :: rest, event, tks, acc =>
    let seat0 := (lookupA seatID event.Seats).getD zeroSeat
    let seat : Seat := { seat0 with Status := "Reserved" }
    let event' : Event := { event with Seats := insertA seatID seat event.Seats }
    let ticket : Ticket :=
      { ID := seat.ID, UserID := userID, Status := "", SeatID := seatID,
        EventID := eventID, ReservedAt := now }
    reserveLoop userID eventID now rest event' (insertA ticket.ID ticket tks) (acc ++ [ticket])

/-- `InventoryActor.ReserveTicket` (main.go lines 176-215).  Returns the Go
function's result pair together with the post-state; failure returns the
state unchanged. -/
def ReserveTicket (a : InventoryActor) (userID eventID : String) (seatIDs : List String)
    (now : Nat) : (List Ticket × Bool) × InventoryActor :=
  match lookupA eventID a.events with
  | none => (([], false), a)
  | some event =>
    if seatCheck event seatIDs then
      let r := reserveLoop userID eventID now seatIDs event a.tickets []
      ((r.2.2, true),
       { tickets := r.2.1,
         events := insertA eventID r.1 a.events,
         baskets := insertA userID (((lookupA userID a.baskets).getD []) ++ r.2.2) a.baskets })
    else (([], false), a)

/-- `InventoryActor.GetBasket` (part_000 lines 268-270); a missing user reads
as Go's `nil` slice. -/
def GetBasket (a : InventoryActor) (userID : String) : List Ticket :=
  (lookupA userID a.baskets).getD []

/-- `InventoryActor.GetEvent` (main.go lines 273-275), which lowercases the
id before the map read. -/
def GetEvent (a : InventoryActor) (eventID : String) : Event :=
  (lookupA eventID.toLower a.events).getD zeroEvent

/-- The Go method `Ticket.Seat()` (main.go lines 277-281), which reads the
global inventory; `inv` stands for that global. -/
def ticketSeatLabel (inv : InventoryActor) (t : Ticket) : String :=
  let event := GetEvent inv t.EventID
  let seat := (lookupA t.SeatID event.Seats).getD zeroSeat
  seat.Row ++ "-" ++ toString seat.Seat

/-- `InventoryActor.GetBasketAsHTML` (main.go lines 283-290). -/
def GetBasketAsHTML (a : InventoryActor) (userID : String) : String :=
  (GetBasket a userID).foldl (fun html t => html ++ "<li>" ++ ticketSeatLabel a t ++ "</li>") ""

/-- `InventoryActor.GetSeatAsHTML` (main.go lines 292-295). -/
def GetSeatAsHTML (a : InventoryActor) (eventID seatID : String) : String :=
  let seat := (lookupA seatID ((lookupA eventID a.events).getD zeroEvent).Seats).getD zeroSeat
  "<button class=\"" ++ seat.Status ++ "\" data-seat-id=\"" ++ seat.ID ++ "\" sse-swap=\"" ++
    seat.ID ++ "\">" ++ toString seat.Seat ++ "</button>"

/-- One SSE publish (`sseServer.Publish` in main.go lines 104-114): the
stream name it is published on, the SSE event name, and the data payload. -/
structure PublishedEvent where
  subject : String
  eventName : String
  data : String
deriving DecidableEq, Repr

/-- The outcome of the reservation actor processing one request. -/
structure StageResult where
  inv : InventoryActor
  published : List PublishedEvent
  toPayment : Option (List Ticket)
deriving DecidableEq, Repr

/-- One iteration of the reservation actor's mailbox loop
(`NewReservationActor`, main.go lines 99-120): reserve, then on success
publish the basket on the user's stream, one seat update per requested seat
on the event's stream, and forward the batch to payment; on failure publish
and forward nothing. -/
def reservationStep (inv : InventoryActor) (req : ReservationRequest) (now : Nat) :
    StageResult :=
  let r := ReserveTicket inv req.UserID req.EventID req.SeatIDs now
  if r.1.2 then
    { inv := r.2,
      published :=
        { subject := req.UserID, eventName := "reservation",
          data := GetBasketAsHTML r.2 req.UserID } ::
          req.SeatIDs.map fun seatID =>
            { subject := req.EventID, eventName := seatID,
              data := GetSeatAsHTML r.2 req.EventID seatID },
      toPayment := some r.1.1 }
  else
    { inv := r.2, published := [], toPayment := none }

/-- The payment actor (`NewPaymentActor`, main.go lines 125-139) forwards a
batch unchanged to the notification actor. -/
def paymentStep (tickets : List Ticket) : List Ticket := tickets

/-- The notification actor's access `tickets[0].UserID` (main.go line 224);
`none` models the out-of-range panic on an empty batch. -/
def notificationFirstUser (tickets : List Ticket) : Option String :=
  (tickets[0]?).map fun t => t.UserID

/-- States reachable from the seeded inventory by any sequence of
`ReserveTicket` calls (the only mutator in the source). -/
inductive Reachable : InventoryActor → Prop where
  | init : Reachable NewInventoryActor
  | step (s : InventoryActor) (u e : String) (ids : List String) (now : Nat) :
      Reachable s → Reachable (ReserveTicket s u e ids now).2

/-- The exact guard under which `ReserveTicket` takes its success branch:
the event exists and every requested seat id is present and `Available`. -/
def validRequest (s : InventoryActor) (e : String) (ids : List String) : Bool :=
  match lookupA e s.events with
  | none => false
  | some event => seatCheck event ids

/-- Run a list of reservation requests (with their timestamps) in order. -/
def runRequests (s : InventoryActor) : List (ReservationRequest × Nat) → InventoryActor
  | [] => s
  | (r, now) :: rest => runRequests (ReserveTicket s r.UserID r.EventID r.SeatIDs now).2 rest

/-- The concatenation, in arrival order, of the ticket batches returned by
the successful requests of user `u` along a run. -/
def userBatches (s : InventoryActor) (u : String) : List (ReservationRequest × Nat) → List Ticket
  | [] => []
  | (r, now) :: rest =>
    let res := ReserveTicket s r.UserID r.EventID r.SeatIDs now
    (if r.UserID = u ∧ res.1.2 = true then res.1.1 else []) ++ userBatches res.2 u rest

/-- The tickets stored in the inventory's ticket map. -/
def ticketValues (s : InventoryActor) : List Ticket := s.tickets.map Prod.snd

/-- How many tickets in the ticket store reference seat id `sid`. -/
def seatRefCount (s : InventoryActor) (sid : String) : Nat :=
  (ticketValues s).countP fun t => t.SeatID == sid

/-- All tickets stored in any user's basket. -/
def allBasketTickets (s : InventoryActor) : List Ticket :=
  (s.baskets.map Prod.snd).foldr (fun l acc => l ++ acc) []

/-- How many basket entries, across all users, reference seat id `sid`. -/
def basketRefCount (s : InventoryActor) (sid : String) : Nat :=
  (allBasketTickets s).countP fun t => t.SeatID == sid

/-! ### Association-list lemmas -/

theorem keysA_nil {α : Type} : keysA ([] : List (String × α)) = [] := rfl

theorem keysA_cons {α : Type} (p : String × α) (t : List (String × α)) :
    keysA (p :: t) = p.1 :: keysA t := rfl

theorem lookupA_insertA_self {α : Type} (k : String) (v : α) (l : List (String × α)) :
    lookupA k (insertA k v l) = some v := by
  induction l with
  | nil => simp [insertA, lookupA]
  | cons p t ih =>
    obtain ⟨k', v'⟩ := p
    by_cases h : k' = k
    · subst h; simp [insertA, lookupA]
    · simp [insertA, lookupA, h, ih]

theorem lookupA_insertA_ne {α : Type} {k k' : String} (v : α) (l : List (String × α))
    (h : k' ≠ k) : lookupA k' (insertA k v l) = lookupA k' l := by
  induction l with
  | nil => simp [insertA, lookupA, Ne.symm h]
  | cons p t ih =>
    obtain ⟨k₀, v₀⟩ := p
    by_cases h0 : k₀ = k
    · subst h0; simp [insertA, lookupA, Ne.symm h]
    · simp [insertA, lookupA, h0, ih]

theorem insertA_self_of_lookup {α : Type} {k : String} {v : α} {l : List (String × α)}
    (h : lookupA k l = some v) : insertA k v l = l := by
  induction l with
  | nil => simp [lookupA] at h
  | cons p t ih =>
    obtain ⟨k₀, v₀⟩ := p
    by_cases h0 : k₀ = k
    · subst h0
      simp [lookupA] at h
      simp [insertA, h]
    · simp [lookupA, h0] at h
      simp [insertA, h0, ih h]

theorem lookupA_mem {α : Type} {k : String} {v : α} {l : List (String × α)}
    (h : lookupA k l = some v) : (k, v) ∈ l := by
  induction l with
  | nil => simp [lookupA] at h
  | cons p t ih =>
    obtain ⟨k₀, v₀⟩ := p
    by_cases h0 : k₀ = k
    · subst h0
      simp [lookupA] at h
      simp [h]
    · simp [lookupA, h0] at h
      exact List.mem_cons_of_mem _ (ih h)

theorem mem_insertA {α : Type} {p : String × α} {k : String} {v : α} {l : List (String × α)}
    (h : p ∈ insertA k v l) : p = (k, v) ∨ p ∈ l := by
  induction l with
  | nil => simp [insertA] at h; simp [h]
  | cons q t ih =>
    obtain ⟨k₀, v₀⟩ := q
    by_cases h0 : k₀ = k
    · subst h0
      simp [insertA] at h
      rcases h with h | h
      · exact Or.inl (by simp [h])
      · exact Or.inr (List.mem_cons_of_mem _ h)
    · simp [insertA, h0] at h
      rcases h with h | h
      · exact Or.inr (by simp [h])
      · rcases ih h with h' | h'
        · exact Or.inl h'
        · exact Or.inr (List.mem_cons_of_mem _ h')

theorem mem_keysA_insertA {α : Type} {x k : String} {v : α} {l : List (String × α)} :
    x ∈ keysA (insertA k v l) ↔ x = k ∨ x ∈ keysA l := by
  induction l with
  | nil => simp [insertA, keysA]
  | cons q t ih =>
    obtain ⟨k₀, v₀⟩ := q
    by_cases h0 : k₀ = k
    · subst h0
      simp only [insertA, ite_true, eq_self_iff_true, keysA_cons, List.mem_cons]
      tauto
    · simp only [insertA, if_neg h0, keysA_cons, List.mem_cons, ih]
      tauto

theorem keysA_insertA_of_mem {α : Type} {k : String} (v : α) {l : List (String × α)}
    (h : k ∈ keysA l) : keysA (insertA k v l) = keysA l := by
  induction l with
  | nil => simp [keysA] at h
  | cons q t ih =>
    obtain ⟨k₀, v₀⟩ := q
    by_cases h0 : k₀ = k
    · subst h0
      simp only [insertA, ite_true, eq_self_iff_true, keysA_cons]
    · have hk : k ∈ keysA t := by
        rw [keysA_cons, List.mem_cons] at h
        rcases h with h | h
        · exact absurd h.symm h0
        · exact h
      simp only [insertA, if_neg h0, keysA_cons, ih hk]

theorem nodup_keysA_insertA {α : Type} {k : String} {v : α} {l : List (String × α)}
    (h : (keysA l).Nodup) : (keysA (insertA k v l)).Nodup := by
  induction l with
  | nil => simp [insertA, keysA]
  | cons q t ih =>
    obtain ⟨k₀, v₀⟩ := q
    rw [keysA_cons, List.nodup_cons] at h
    by_cases h0 : k₀ = k
    · subst h0
      simp only [insertA, ite_true, eq_self_iff_true, keysA_cons, List.nodup_cons]
      exact ⟨h.1, h.2⟩
    · simp only [insertA, if_neg h0, keysA_cons, List.nodup_cons]
      refine ⟨?_, ih h.2⟩
      rw [mem_keysA_insertA]
      rintro (h' | h')
      · exact h0 h'
      · exact h.1 h'

theorem lookupA_isSome_iff {α : Type} (k : String) (l : List (String × α)) :
    (lookupA k l).isSome = true ↔ k ∈ keysA l := by
  induction l with
  | nil => simp [lookupA, keysA]
  | cons q t ih =>
    obtain ⟨k₀, v₀⟩ := q
    by_cases h0 : k₀ = k
    · subst h0; simp [lookupA, keysA]
    · simp [lookupA, keysA, h0, Ne.symm h0, ih]

theorem lookupA_singleton {α : Type} {k k₀ : String} {v₀ v : α}
    (h : lookupA k [(k₀, v₀)] = some v) : k = k₀ ∧ v = v₀ := by
  by_cases h0 : k₀ = k
  · subst h0
    simp [lookupA] at h
    exact ⟨rfl, h.symm⟩
  · simp [lookupA, h0] at h

theorem tickets_countP (l : List (String × Ticket)) (hn : (keysA l).Nodup)
    (hk : ∀ q ∈ l, (q.2).SeatID = q.1) (sid : String) :
    (l.map Prod.snd).countP (fun t => t.SeatID == sid) =
      if (lookupA sid l).isSome then 1 else 0 := by
  induction l with
  | nil => simp [lookupA]
  | cons q t ih =>
    obtain ⟨k₀, t₀⟩ := q
    have hkh : t₀.SeatID = k₀ := hk (k₀, t₀) (List.mem_cons_self _ _)
    rw [keysA_cons, List.nodup_cons] at hn
    have ihr := ih hn.2 (fun q hq => hk q (List.mem_cons_of_mem _ hq))
    by_cases h0 : k₀ = sid
    · subst h0
      have ht : (lookupA k₀ t).isSome = false := by
        rw [Bool.eq_false_iff]
        intro hc
        exact hn.1 ((lookupA_isSome_iff _ _).mp hc)
      rw [ht] at ihr
      simp [List.countP_cons, hkh, lookupA, ihr]
    · simp [List.countP_cons, hkh, h0, lookupA, ihr]

/-! ### Properties of the mutation pass -/

theorem reserveLoop_map_seatID (u e : String) (now : Nat) (ids : List String) :
    ∀ (ev : Event) (tks : List (String × Ticket)) (acc : List Ticket),
      ((reserveLoop u e now ids ev tks acc).2.2).map (fun t => t.SeatID) =
        acc.map (fun t => t.SeatID) ++ ids := by
  induction ids with
  | nil => intro ev tks acc; simp [reserveLoop]
  | cons sid rest ih =>
    intro ev tks acc
    simp [reserveLoop, ih]

theorem reserveLoop_preserves_reserved (u e : String) (now : Nat) (ids : List String) :
    ∀ (ev : Event) (tks : List (String × Ticket)) (acc : List Ticket) (sid : String),
      (∃ st, lookupA sid ev.Seats = some st ∧ st.Status = "Reserved") →
      ∃ st, lookupA sid (reserveLoop u e now ids ev tks acc).1.Seats = some st ∧
        st.Status = "Reserved" := by
  induction ids with
  | nil => intro ev tks acc sid h; simpa [reserveLoop] using h
  | cons x rest ih =>
    intro ev tks acc sid h
    simp only [reserveLoop]
    apply ih
    by_cases hx : x = sid
    · subst hx
      exact ⟨_, lookupA_insertA_self _ _ _, rfl⟩
    · obtain ⟨st, h1, h2⟩ := h
      exact ⟨st, by rw [lookupA_insertA_ne _ _ (Ne.symm hx)]; exact h1, h2⟩

theorem reserveLoop_seat_reserved (u e : String) (now : Nat) (ids : List String) :
    ∀ (ev : Event) (tks : List (String × Ticket)) (acc : List Ticket) (sid : String),
      sid ∈ ids →
      ∃ st, lookupA sid (reserveLoop u e now ids ev tks acc).1.Seats = some st ∧
        st.Status = "Reserved" := by
  induction ids with
  | nil => intro ev tks acc sid h; simp at h
  | cons x rest ih =>
    intro ev tks acc sid h
    rcases List.mem_cons.mp h with h | h
    · subst h
      simp only [reserveLoop]
      apply reserveLoop_preserves_reserved
      exact ⟨_, lookupA_insertA_self _ _ _, rfl⟩
    · simp only [reserveLoop]
      exact ih _ _ _ _ h

/-- The well-formedness the inventory maintains between the seat map of the
single seeded event and the ticket store. -/
structure MapsWF (ev : Event) (tks : List (String × Ticket)) : Prop where
  seatNodup : (keysA ev.Seats).Nodup
  seatID : ∀ p ∈ ev.Seats, (p.2).ID = p.1
  tickNodup : (keysA tks).Nodup
  tickWF : ∀ q ∈ tks, (q.2).SeatID = q.1 ∧ (q.2).ID = q.1
  link : ∀ sid : String, (lookupA sid tks).isSome = true ↔
      ∃ st, lookupA sid ev.Seats = some st ∧ st.Status = "Reserved"

theorem MapsWF_insert {ev : Event} {tks : List (String × Ticket)} {x : String}
    (h : MapsWF ev tks) (sR : Seat) (tR : Ticket)
    (hs1 : sR.ID = x) (hs2 : sR.Status = "Reserved")
    (ht1 : tR.SeatID = x) (ht2 : tR.ID = x) :
    MapsWF { ev with Seats := insertA x sR ev.Seats } (insertA x tR tks) := by
  constructor
  · exact nodup_keysA_insertA h.seatNodup
  · intro p hp
    rcases mem_insertA hp with hp | hp
    · rw [hp]
      exact hs1
    · exact h.seatID p hp
  · exact nodup_keysA_insertA h.tickNodup
  · intro q hq
    rcases mem_insertA hq with hq | hq
    · rw [hq]
      exact ⟨ht1, ht2⟩
    · exact h.tickWF q hq
  · intro sid
    by_cases hsx : sid = x
    · subst hsx
      show (lookupA sid (insertA sid tR tks)).isSome = true ↔
        ∃ st, lookupA sid (insertA sid sR ev.Seats) = some st ∧ st.Status = "Reserved"
      simp [lookupA_insertA_self, hs2]
    · show (lookupA sid (insertA x tR tks)).isSome = true ↔
        ∃ st, lookupA sid (insertA x sR ev.Seats) = some st ∧ st.Status = "Reserved"
      rw [lookupA_insertA_ne _ _ hsx, lookupA_insertA_ne _ _ hsx]
      exact h.link sid

theorem reserveLoop_WF (u e : String) (now : Nat) (ids : List String) :
    ∀ (ev : Event) (tks : List (String × Ticket)) (acc : List Ticket),
      MapsWF ev tks → (∀ sid ∈ ids, sid ∈ keysA ev.Seats) →
      MapsWF (reserveLoop u e now ids ev tks acc).1
          (reserveLoop u e now ids ev tks acc).2.1 ∧
        keysA (reserveLoop u e now ids ev tks acc).1.Seats = keysA ev.Seats := by
  induction ids with
  | nil =>
    intro ev tks acc h _
    exact ⟨h, rfl⟩
  | cons x rest ih =>
    intro ev tks acc h hmem
    have hx : x ∈ keysA ev.Seats := hmem x (List.mem_cons_self _ _)
    obtain ⟨st0, hst0⟩ : ∃ st, lookupA x ev.Seats = some st :=
      Option.isSome_iff_exists.mp ((lookupA_isSome_iff x ev.Seats).mpr hx)
    have hid : st0.ID = x := h.seatID _ (lookupA_mem hst0)
    simp only [reserveLoop, hst0, Option.getD_some]
    rw [hid]
    have hstep : MapsWF
        { ev with Seats := insertA x ({ ID := x, Row := st0.Row, Seat := st0.Seat, Status := "Reserved" } : Seat) ev.Seats }
        (insertA x ({ ID := x, UserID := u, Status := "", SeatID := x, EventID := e, ReservedAt := now } : Ticket) tks) :=
      MapsWF_insert h _ _ rfl rfl rfl rfl
    have hmem' : ∀ sid ∈ rest, sid ∈ keysA (insertA x
        ({ ID := x, Row := st0.Row, Seat := st0.Seat, Status := "Reserved" } : Seat)
        ev.Seats) := by
      intro sid hs
      rw [keysA_insertA_of_mem _ hx]
      exact hmem sid (List.mem_cons_of_mem _ hs)
    obtain ⟨hWF, hkeys⟩ := ih _ _ _ hstep hmem'
    refine ⟨hWF, ?_⟩
    rw [hkeys]
    exact keysA_insertA_of_mem _ hx

/-! ### Characterizing the validation pass and the branches of ReserveTicket -/

theorem seatCheck_spec {E : Event} {ids : List String} (h : seatCheck E ids = true) :
    ∀ sid ∈ ids, ∃ st, lookupA sid E.Seats = some st ∧ st.Status = "Available" := by
  intro sid hs
  have hall := List.all_eq_true.mp h sid hs
  cases hl : lookupA sid E.Seats with
  | none => rw [hl] at hall; simp at hall
  | some st =>
    rw [hl] at hall
    simp at hall
    exact ⟨st, rfl, hall⟩

theorem seatCheck_of_available {E : Event} {ids : List String}
    (h : ∀ sid ∈ ids, ∃ st, lookupA sid E.Seats = some st ∧ st.Status = "Available") :
    seatCheck E ids = true := by
  apply List.all_eq_true.mpr
  intro sid hs
  obtain ⟨st, h1, h2⟩ := h sid hs
  rw [h1]
  simp [h2]

theorem seatCheck_eq_false {E : Event} {ids : List String} {sid : String} (hs : sid ∈ ids)
    (hbad : lookupA sid E.Seats = none ∨
      ∃ st, lookupA sid E.Seats = some st ∧ st.Status ≠ "Available") :
    seatCheck E ids = false := by
  rw [Bool.eq_false_iff]
  intro h
  obtain ⟨st, h1, h2⟩ := seatCheck_spec h sid hs
  rcases hbad with hb | ⟨st', hb1, hb2⟩
  · rw [h1] at hb
    exact Option.noConfusion hb
  · rw [h1] at hb1
    injection hb1 with hst
    exact hb2 (hst ▸ h2)

theorem ReserveTicket_event_none {s : InventoryActor} {u e : String} {ids : List String}
    {now : Nat} (h : lookupA e s.events = none) :
    ReserveTicket s u e ids now = (([], false), s) := by
  simp [ReserveTicket, h]

theorem ReserveTicket_check_false {s : InventoryActor} {u e : String} {ids : List String}
    {now : Nat} {E : Event} (hE : lookupA e s.events = some E)
    (hc : seatCheck E ids = false) :
    ReserveTicket s u e ids now = (([], false), s) := by
  simp [ReserveTicket, hE, hc]

theorem ReserveTicket_check_true {s : InventoryActor} {u e : String} {ids : List String}
    {now : Nat} {E : Event} (hE : lookupA e s.events = some E)
    (hc : seatCheck E ids = true) :
    ReserveTicket s u e ids now =
      (((reserveLoop u e now ids E s.tickets []).2.2, true),
       { tickets := (reserveLoop u e now ids E s.tickets []).2.1,
         events := insertA e (reserveLoop u e now ids E s.tickets []).1 s.events,
         baskets := insertA u (((lookupA u s.baskets).getD []) ++ (reserveLoop u e now ids E s.tickets []).2.2) s.baskets }) := by
  simp [ReserveTicket, hE, hc]

/-! ### The reachable-state invariant -/

/-- The invariant every reachable inventory state satisfies: the events map
holds exactly the one seeded event, and its seat map and the ticket store are
well formed and in sync. -/
def Inv (s : InventoryActor) : Prop :=
  ∃ E, s.events = [("event_1", E)] ∧ MapsWF E s.tickets

theorem seededSeats_nodup : (keysA seededSeats).Nodup := by decide

theorem seededSeats_ID : ∀ p ∈ seededSeats, (p.2).ID = p.1 := by decide

theorem seededSeats_available : ∀ p ∈ seededSeats, (p.2).Status = "Available" := by decide

theorem Inv_init : Inv NewInventoryActor := by
  refine ⟨seededEvent, rfl, ?_, seededSeats_ID, ?_, ?_, ?_⟩
  · exact seededSeats_nodup
  · simp [keysA, NewInventoryActor]
  · intro q hq
    simp [NewInventoryActor] at hq
  · intro sid
    constructor
    · intro h
      simp [lookupA, NewInventoryActor] at h
    · rintro ⟨st, hl, hr⟩
      have ha := seededSeats_available _ (lookupA_mem hl)
      rw [ha] at hr
      exact absurd hr (by decide)

theorem Inv_step (s : InventoryActor) (u e : String) (ids : List String) (now : Nat)
    (h : Inv s) : Inv (ReserveTicket s u e ids now).2 := by
  obtain ⟨E, hev, hWF⟩ := h
  cases hl : lookupA e s.events with
  | none =>
    rw [ReserveTicket_event_none hl]
    exact ⟨E, hev, hWF⟩
  | some event =>
    have he : e = "event_1" ∧ event = E := by
      rw [hev] at hl
      exact lookupA_singleton hl
    obtain ⟨he1, he2⟩ := he
    subst he1
    subst he2
    cases hc : seatCheck event ids with
    | false =>
      rw [ReserveTicket_check_false hl hc]
      exact ⟨event, hev, hWF⟩
    | true =>
      rw [ReserveTicket_check_true hl hc]
      have hmem : ∀ sid ∈ ids, sid ∈ keysA event.Seats := by
        intro sid hs
        obtain ⟨st, h1, _⟩ := seatCheck_spec hc sid hs
        apply (lookupA_isSome_iff _ _).mp
        rw [h1]
        rfl
      obtain ⟨hWF', _⟩ := reserveLoop_WF u "event_1" now ids event s.tickets [] hWF hmem
      refine ⟨(reserveLoop u "event_1" now ids event s.tickets []).1, ?_, hWF'⟩
      show insertA "event_1" _ s.events = _
      rw [hev]
      simp [insertA]

theorem Inv_of_Reachable {s : InventoryActor} (h : Reachable s) : Inv s := by
  induction h with
  | init => exact Inv_init
  | step s u e ids now _ ih => exact Inv_step s u e ids now ih

/-! ### Basket evolution -/

theorem getBasket_step (s : InventoryActor) (u uid e : String) (ids : List String)
    (now : Nat) :
    GetBasket (ReserveTicket s uid e ids now).2 u =
      GetBasket s u ++
        (if uid = u ∧ (ReserveTicket s uid e ids now).1.2 = true
          then (ReserveTicket s uid e ids now).1.1 else []) := by
  cases hl : lookupA e s.events with
  | none =>
    rw [ReserveTicket_event_none hl]
    simp
  | some E =>
    cases hc : seatCheck E ids with
    | false =>
      rw [ReserveTicket_check_false hl hc]
      simp
    | true =>
      rw [ReserveTicket_check_true hl hc]
      by_cases hu : uid = u
      · subst hu
        show ((lookupA uid (insertA uid _ s.baskets)).getD []) = _
        rw [lookupA_insertA_self]
        simp [GetBasket]
      · show ((lookupA u (insertA uid _ s.baskets)).getD []) = _
        rw [lookupA_insertA_ne _ _ (Ne.symm hu)]
        simp [GetBasket, hu]

theorem runRequests_basket (u : String) (reqs : List (ReservationRequest × Nat)) :
    ∀ s : InventoryActor,
      GetBasket (runRequests s reqs) u = GetBasket s u ++ userBatches s u reqs := by
  induction reqs with
  | nil =>
    intro s
    simp [runRequests, userBatches]
  | cons p rest ih =>
    intro s
    obtain ⟨r, now⟩ := p
    simp only [runRequests, userBatches]
    rw [ih, getBasket_step, List.append_assoc]

/-! ### Claim theorems -/

/-- C1: when the event exists and every requested seat id names an Available
seat of that event, `ReserveTicket` returns success with exactly one ticket
per requested seat id in request order, every requested seat's status is
`Reserved` afterwards, and the minted batch is appended to the calling
user's basket. -/
theorem reserve_success_spec (s : InventoryActor) (u e : String) (ids : List String)
    (now : Nat) (E : Event) (hE : lookupA e s.events = some E)
    (hA : ∀ sid ∈ ids, ∃ st, lookupA sid E.Seats = some st ∧ st.Status = "Available") :
    (ReserveTicket s u e ids now).1.2 = true ∧
    ((ReserveTicket s u e ids now).1.1).map (fun t => t.SeatID) = ids ∧
    (∀ sid ∈ ids, ∃ E' st, lookupA e (ReserveTicket s u e ids now).2.events = some E' ∧
      lookupA sid E'.Seats = some st ∧ st.Status = "Reserved") ∧
    GetBasket (ReserveTicket s u e ids now).2 u =
      GetBasket s u ++ (ReserveTicket s u e ids now).1.1 := by
  have hc : seatCheck E ids = true := seatCheck_of_available hA
  rw [ReserveTicket_check_true hE hc]
  refine ⟨rfl, ?_, ?_, ?_⟩
  · simpa using reserveLoop_map_seatID u e now ids E s.tickets []
  · intro sid hs
    obtain ⟨st, h1, h2⟩ := reserveLoop_seat_reserved u e now ids E s.tickets [] sid hs
    exact ⟨_, st, lookupA_insertA_self _ _ _, h1, h2⟩
  · show ((lookupA u (insertA u _ s.baskets)).getD []) = _
    rw [lookupA_insertA_self]
    simp [GetBasket]

/-- C1 witness: reserving two Available seats of the seeded event. -/
theorem reserve_success_spec_witness :
    (lookupA "event_1" NewInventoryActor.events = some seededEvent ∧
      ∀ sid ∈ ["seat-A-01", "seat-A-02"],
        ∃ st, lookupA sid seededEvent.Seats = some st ∧ st.Status = "Available") ∧
    ((ReserveTicket NewInventoryActor "u1" "event_1" ["seat-A-01", "seat-A-02"] 0).1.2 = true ∧
      ((ReserveTicket NewInventoryActor "u1" "event_1" ["seat-A-01", "seat-A-02"] 0).1.1).map
        (fun t => t.SeatID) = ["seat-A-01", "seat-A-02"] ∧
      (∀ sid ∈ ["seat-A-01", "seat-A-02"], ∃ E' st,
        lookupA "event_1"
          (ReserveTicket NewInventoryActor "u1" "event_1" ["seat-A-01", "seat-A-02"] 0).2.events =
          some E' ∧ lookupA sid E'.Seats = some st ∧ st.Status = "Reserved") ∧
      GetBasket (ReserveTicket NewInventoryActor "u1" "event_1" ["seat-A-01", "seat-A-02"] 0).2
          "u1" =
        GetBasket NewInventoryActor "u1" ++
          (ReserveTicket NewInventoryActor "u1" "event_1" ["seat-A-01", "seat-A-02"] 0).1.1) := by
  have hA : ∀ sid ∈ ["seat-A-01", "seat-A-02"],
      ∃ st, lookupA sid seededEvent.Seats = some st ∧ st.Status = "Available" := by
    intro sid hs
    fin_cases hs
    · exact ⟨_, rfl, rfl⟩
    · exact ⟨_, rfl, rfl⟩
  exact ⟨⟨rfl, hA⟩, reserve_success_spec NewInventoryActor "u1" "event_1"
    ["seat-A-01", "seat-A-02"] 0 seededEvent rfl hA⟩

/-- C2: when the event is unknown, or some requested seat id is unknown in
the event, or some requested seat is not Available, `ReserveTicket` returns
no tickets with success=false and the entire inventory state is returned
unchanged. -/
theorem reserve_failure_spec (s : InventoryActor) (u e : String) (ids : List String)
    (now : Nat)
    (h : lookupA e s.events = none ∨
      ∃ E, lookupA e s.events = some E ∧ ∃ sid ∈ ids,
        (lookupA sid E.Seats = none ∨
          ∃ st, lookupA sid E.Seats = some st ∧ st.Status ≠ "Available")) :
    ReserveTicket s u e ids now = (([], false), s) := by
  rcases h with h | ⟨E, hE, sid, hs, hbad⟩
  · exact ReserveTicket_event_none h
  · exact ReserveTicket_check_false hE (seatCheck_eq_false hs hbad)

/-- C2 witness: a request naming an unknown event id fails and leaves the
seeded state untouched. -/
theorem reserve_failure_spec_witness :
    (lookupA "no_such_event" NewInventoryActor.events = none ∨
      ∃ E, lookupA "no_such_event" NewInventoryActor.events = some E ∧
        ∃ sid ∈ ["seat-A-01"],
          (lookupA sid E.Seats = none ∨
            ∃ st, lookupA sid E.Seats = some st ∧ st.Status ≠ "Available")) ∧
    ReserveTicket NewInventoryActor "u1" "no_such_event" ["seat-A-01"] 0 =
      (([], false), NewInventoryActor) := by
  have h : lookupA "no_such_event" NewInventoryActor.events = none ∨
      ∃ E, lookupA "no_such_event" NewInventoryActor.events = some E ∧
        ∃ sid ∈ ["seat-A-01"],
          (lookupA sid E.Seats = none ∨
            ∃ st, lookupA sid E.Seats = some st ∧ st.Status ≠ "Available") :=
    Or.inl (by decide)
  exact ⟨h, reserve_failure_spec NewInventoryActor "u1" "no_such_event" ["seat-A-01"] 0 h⟩

/-- C5: along any run from the seeded inventory, each user's basket is
exactly the concatenation, in arrival order, of the ticket batches of that
user's successful reservations; and every single `ReserveTicket` call only
ever appends to any user's basket. -/
theorem basket_accumulation :
    (∀ (reqs : List (ReservationRequest × Nat)) (u : String),
      GetBasket (runRequests NewInventoryActor reqs) u =
        userBatches NewInventoryActor u reqs) ∧
    (∀ (s : InventoryActor) (u uid e : String) (ids : List String) (now : Nat),
      ∃ d, GetBasket (ReserveTicket s uid e ids now).2 u = GetBasket s u ++ d) := by
  constructor
  · intro reqs u
    rw [runRequests_basket]
    simp [GetBasket, NewInventoryActor, lookupA]
  · intro s u uid e ids now
    exact ⟨_, getBasket_step s u uid e ids now⟩

/-- C9: a request for the empty seat list against an existing event succeeds
with an empty ticket batch, and neither the seat statuses, nor the ticket
store, nor any basket changes. -/
theorem reserve_empty_seats (s : InventoryActor) (u e : String) (now : Nat) (E : Event)
    (hE : lookupA e s.events = some E) :
    (ReserveTicket s u e [] now).1 = ([], true) ∧
    (ReserveTicket s u e [] now).2.events = s.events ∧
    (ReserveTicket s u e [] now).2.tickets = s.tickets ∧
    ∀ u', GetBasket (ReserveTicket s u e [] now).2 u' = GetBasket s u' := by
  have hc : seatCheck E [] = true := rfl
  rw [ReserveTicket_check_true hE hc]
  refine ⟨rfl, ?_, rfl, ?_⟩
  · show insertA e E s.events = s.events
    exact insertA_self_of_lookup hE
  · intro u'
    by_cases hu : u = u'
    · subst hu
      show ((lookupA u (insertA u _ s.baskets)).getD []) = _
      rw [lookupA_insertA_self]
      simp [GetBasket, reserveLoop]
    · show ((lookupA u' (insertA u _ s.baskets)).getD []) = _
      rw [lookupA_insertA_ne _ _ (Ne.symm hu)]
      rfl

/-- C9 witness: the empty request against the seeded event. -/
theorem reserve_empty_seats_witness :
    lookupA "event_1" NewInventoryActor.events = some seededEvent ∧
    ((ReserveTicket NewInventoryActor "u1" "event_1" [] 0).1 = ([], true) ∧
      (ReserveTicket NewInventoryActor "u1" "event_1" [] 0).2.events =
        NewInventoryActor.events ∧
      (ReserveTicket NewInventoryActor "u1" "event_1" [] 0).2.tickets =
        NewInventoryActor.tickets ∧
      ∀ u', GetBasket (ReserveTicket NewInventoryActor "u1" "event_1" [] 0).2 u' =
        GetBasket NewInventoryActor u') :=
  ⟨rfl, reserve_empty_seats NewInventoryActor "u1" "event_1" 0 seededEvent rfl⟩

/-- The state reached by one reservation request that repeats a seat id. -/
def dupState : InventoryActor :=
  (ReserveTicket NewInventoryActor "u1" "event_1" ["seat-A-01", "seat-A-01"] 0).2

/-- C3 counterexample: from the seeded inventory, the single call
`ReserveTicket("u1", "event_1", ["seat-A-01", "seat-A-01"])` reaches a state
in which the user's basket holds two tickets referencing seat-A-01, so it is
not the case that at most one stored ticket ever references a given seat id
when basket entries are counted. -/
theorem basket_double_reference :
    Reachable dupState ∧ ¬ basketRefCount dupState "seat-A-01" ≤ 1 :=
  ⟨Reachable.step NewInventoryActor "u1" "event_1" ["seat-A-01", "seat-A-01"] 0 Reachable.init,
    by decide⟩

/-- C3 (amended): in every state reachable from the seeded inventory, a seat
of the event has status `Reserved` exactly when exactly one ticket in the
inventory's ticket store references that seat id, and the ticket store never
holds more than one ticket referencing a given seat id. -/
theorem reserved_iff_unique_stored_ticket (s : InventoryActor) (e sid : String)
    (E : Event) (st : Seat) (hr : Reachable s) (hE : lookupA e s.events = some E)
    (hs : lookupA sid E.Seats = some st) :
    (st.Status = "Reserved" ↔ seatRefCount s sid = 1) ∧ seatRefCount s sid ≤ 1 := by
  obtain ⟨E₀, hev, hWF⟩ := Inv_of_Reachable hr
  rw [hev] at hE
  obtain ⟨he, hEE⟩ := lookupA_singleton hE
  subst hEE
  have hcount : seatRefCount s sid = if (lookupA sid s.tickets).isSome then 1 else 0 :=
    tickets_countP s.tickets hWF.tickNodup (fun q hq => (hWF.tickWF q hq).1) sid
  constructor
  · constructor
    · intro hres
      rw [hcount]
      have hsome : (lookupA sid s.tickets).isSome = true :=
        (hWF.link sid).mpr ⟨st, hs, hres⟩
      rw [hsome]
      rfl
    · intro hone
      by_cases hsome : (lookupA sid s.tickets).isSome = true
      · obtain ⟨st', hs', hres'⟩ := (hWF.link sid).mp hsome
        rw [hs] at hs'
        injection hs' with hst
        rw [hst]
        exact hres'
      · rw [hcount, Bool.eq_false_iff.mpr hsome] at hone
        simp at hone
  · rw [hcount]
    by_cases hsome : (lookupA sid s.tickets).isSome = true
    · rw [hsome]
      simp
    · rw [Bool.eq_false_iff.mpr hsome]
      simp

/-- C3 amended-theorem witness: the seeded state, where seat-A-01 is not
Reserved and no stored ticket references it. -/
theorem reserved_iff_unique_stored_ticket_witness :
    Reachable NewInventoryActor ∧
    (∃ E st, lookupA "event_1" NewInventoryActor.events = some E ∧
      lookupA "seat-A-01" E.Seats = some st ∧
      ((st.Status = "Reserved" ↔ seatRefCount NewInventoryActor "seat-A-01" = 1) ∧
        seatRefCount NewInventoryActor "seat-A-01" ≤ 1)) :=
  ⟨Reachable.init, seededEvent, _, rfl, rfl,
    reserved_iff_unique_stored_ticket NewInventoryActor "event_1" "seat-A-01" seededEvent _
      Reachable.init rfl rfl⟩

/-- The seeded inventory after user u0 has reserved seat-B-01. -/
def c4State : InventoryActor :=
  (ReserveTicket NewInventoryActor "u0" "event_1" ["seat-B-01"] 0).2

/-- C4 counterexample: in `c4State`, the two identical requests for
`["seat-A-01", "seat-B-01"]` overlap on seat-A-01, which is currently
Available, yet under their serialization both fail (each also names the
already-Reserved seat-B-01), so it is not the case that exactly one of two
overlapping requests succeeds. -/
theorem overlap_both_fail :
    (∃ E st, lookupA "event_1" c4State.events = some E ∧
      lookupA "seat-A-01" E.Seats = some st ∧ st.Status = "Available") ∧
    "seat-A-01" ∈ ["seat-A-01", "seat-B-01"] ∧
    (ReserveTicket c4State "u1" "event_1" ["seat-A-01", "seat-B-01"] 1).1.2 = false ∧
    (ReserveTicket (ReserveTicket c4State "u1" "event_1" ["seat-A-01", "seat-B-01"] 1).2
      "u2" "event_1" ["seat-A-01", "seat-B-01"] 2).1.2 = false := by
  refine ⟨⟨_, _, rfl, rfl, rfl⟩, by decide, by decide, by decide⟩

/-- C4 (amended): if each of two requests would, on its own, succeed from the
current state (every seat of each exists and is Available) and their seat
sets overlap, then under either serialization order the request that enters
the critical section first succeeds in full and the second fails in full
with the inventory left exactly as the first call produced it. -/
theorem overlap_serialization (s : InventoryActor) (u1 u2 e : String)
    (ids1 ids2 : List String) (n1 n2 : Nat) (sid : String)
    (h1 : validRequest s e ids1 = true) (h2 : validRequest s e ids2 = true)
    (m1 : sid ∈ ids1) (m2 : sid ∈ ids2) :
    (ReserveTicket s u1 e ids1 n1).1.2 = true ∧
    (ReserveTicket (ReserveTicket s u1 e ids1 n1).2 u2 e ids2 n2).1.2 = false ∧
    (ReserveTicket (ReserveTicket s u1 e ids1 n1).2 u2 e ids2 n2).2 =
      (ReserveTicket s u1 e ids1 n1).2 := by
  cases hl : lookupA e s.events with
  | none => rw [validRequest, hl] at h1; exact absurd h1 (by simp)
  | some E =>
    have hc1 : seatCheck E ids1 = true := by
      rw [validRequest, hl] at h1
      exact h1
    rw [ReserveTicket_check_true hl hc1]
    obtain ⟨st, hst, hres⟩ :=
      reserveLoop_seat_reserved u1 e n1 ids1 E s.tickets [] sid m1
    have hE2 : lookupA e
        (insertA e (reserveLoop u1 e n1 ids1 E s.tickets []).1 s.events) =
        some (reserveLoop u1 e n1 ids1 E s.tickets []).1 :=
      lookupA_insertA_self _ _ _
    have hc2 : seatCheck (reserveLoop u1 e n1 ids1 E s.tickets []).1 ids2 = false := by
      apply seatCheck_eq_false m2
      right
      exact ⟨st, hst, by rw [hres]; decide⟩
    rw [ReserveTicket_check_false hE2 hc2]
    exact ⟨rfl, rfl, rfl⟩

/-- C4 amended-theorem witness: two individually valid requests overlapping
on seat-A-01; the first succeeds, the second fails and changes nothing. -/
theorem overlap_serialization_witness :
    (validRequest NewInventoryActor "event_1" ["seat-A-01"] = true ∧
      validRequest NewInventoryActor "event_1" ["seat-A-01", "seat-A-02"] = true ∧
      "seat-A-01" ∈ ["seat-A-01"] ∧ "seat-A-01" ∈ ["seat-A-01", "seat-A-02"]) ∧
    ((ReserveTicket NewInventoryActor "u1" "event_1" ["seat-A-01"] 0).1.2 = true ∧
      (ReserveTicket (ReserveTicket NewInventoryActor "u1" "event_1" ["seat-A-01"] 0).2
        "u2" "event_1" ["seat-A-01", "seat-A-02"] 1).1.2 = false ∧
      (ReserveTicket (ReserveTicket NewInventoryActor "u1" "event_1" ["seat-A-01"] 0).2
        "u2" "event_1" ["seat-A-01", "seat-A-02"] 1).2 =
        (ReserveTicket NewInventoryActor "u1" "event_1" ["seat-A-01"] 0).2) :=
  ⟨⟨by decide, by decide, by decide, by decide⟩,
    overlap_serialization NewInventoryActor "u1" "u2" "event_1" ["seat-A-01"]
      ["seat-A-01", "seat-A-02"] 0 1 "seat-A-01" (by decide) (by decide) (by decide)
      (by decide)⟩

/-- C6: when the reservation actor processes a request of K seats whose
inventory reservation succeeds, it publishes exactly one event on the
requesting user's subject followed by exactly K events on the event's
subject, one per requested seat in order, and forwards the minted batch to
the payment stage. -/
theorem reservation_fanout (s : InventoryActor) (req : ReservationRequest) (now : Nat)
    (h : (ReserveTicket s req.UserID req.EventID req.SeatIDs now).1.2 = true) :
    ∃ ue rest, (reservationStep s req now).published = ue :: rest ∧
      ue.subject = req.UserID ∧
      rest.length = req.SeatIDs.length ∧
      (∀ pe ∈ rest, pe.subject = req.EventID) ∧
      rest.map (fun pe => pe.eventName) = req.SeatIDs ∧
      (reservationStep s req now).toPayment =
        some (ReserveTicket s req.UserID req.EventID req.SeatIDs now).1.1 := by
  simp only [reservationStep]
  rw [if_pos h]
  refine ⟨_, _, rfl, rfl, ?_, ?_, ?_, rfl⟩
  · simp
  · intro pe hpe
    simp only [List.mem_map] at hpe
    obtain ⟨sid, _, hpe⟩ := hpe
    rw [← hpe]
  · rw [List.map_map]
    show List.map (fun seatID : String => seatID) req.SeatIDs = req.SeatIDs
    simp

/-- C6 witness: a successful one-seat request against the seeded state. -/
theorem reservation_fanout_witness :
    (ReserveTicket NewInventoryActor "u1" "event_1" ["seat-A-01"] 0).1.2 = true ∧
    (∃ ue rest,
      (reservationStep NewInventoryActor
        { UserID := "u1", EventID := "event_1", SeatIDs := ["seat-A-01"] } 0).published =
          ue :: rest ∧
      ue.subject = "u1" ∧
      rest.length = (["seat-A-01"] : List String).length ∧
      (∀ pe ∈ rest, pe.subject = "event_1") ∧
      rest.map (fun pe => pe.eventName) = ["seat-A-01"] ∧
      (reservationStep NewInventoryActor
        { UserID := "u1", EventID := "event_1", SeatIDs := ["seat-A-01"] } 0).toPayment =
        some (ReserveTicket NewInventoryActor "u1" "event_1" ["seat-A-01"] 0).1.1) :=
  ⟨by decide, reservation_fanout NewInventoryActor
    { UserID := "u1", EventID := "event_1", SeatIDs := ["seat-A-01"] } 0 (by decide)⟩

/-- C7: when the reservation actor processes a request whose inventory
reservation fails, it publishes no observer event on any subject and
forwards nothing to the payment stage. -/
theorem reservation_failure_silent (s : InventoryActor) (req : ReservationRequest)
    (now : Nat)
    (h : (ReserveTicket s req.UserID req.EventID req.SeatIDs now).1.2 = false) :
    (reservationStep s req now).published = [] ∧
    (reservationStep s req now).toPayment = none := by
  simp only [reservationStep]
  rw [if_neg]
  · exact ⟨rfl, rfl⟩
  · rw [h]
    simp

/-- C7 witness: a request against an unknown event publishes and forwards
nothing. -/
theorem reservation_failure_silent_witness :
    (ReserveTicket NewInventoryActor "u1" "no_such_event" ["seat-A-01"] 0).1.2 = false ∧
    ((reservationStep NewInventoryActor
        { UserID := "u1", EventID := "no_such_event", SeatIDs := ["seat-A-01"] } 0).published =
        [] ∧
      (reservationStep NewInventoryActor
        { UserID := "u1", EventID := "no_such_event", SeatIDs := ["seat-A-01"] } 0).toPayment =
        none) :=
  ⟨by decide, reservation_failure_silent NewInventoryActor
    { UserID := "u1", EventID := "no_such_event", SeatIDs := ["seat-A-01"] } 0 (by decide)⟩

/-- C8: the seeded inventory holds exactly the one event `event_1`, whose
seat map has exactly 50 distinct seats, each Available with a row among A-E
and a seat number in 1..10, and with every combination of the five rows and
the ten numbers present. -/
theorem seeded_inventory_shape :
    NewInventoryActor.events = [("event_1", seededEvent)] ∧
    seededEvent.Seats.length = 50 ∧
    (keysA seededEvent.Seats).Nodup ∧
    (seededEvent.Seats.all fun q =>
      q.2.Status == "Available" && seededRows.contains q.2.Row &&
        decide (1 ≤ q.2.Seat) && decide (q.2.Seat ≤ 10)) = true ∧
    (seededRows.all fun row => (List.range 10).all fun n =>
      seededEvent.Seats.any fun q => q.2.Row == row && q.2.Seat == n + 1) = true := by
  refine ⟨rfl, rfl, seededSeats_nodup, by decide, by decide⟩

/-- The request an empty `seat_ids` JSON array produces at the boundary. -/
def emptySeatRequest : ReservationRequest :=
  { UserID := "u1", EventID := "event_1", SeatIDs := [] }

/-- C10: processing the empty-seat-list request succeeds and forwards the
empty ticket batch through the payment stage, on which the notification
actor's read of the first ticket (`tickets[0]`) is out of range — the batch
delivered to the notification stage is not always non-empty. -/
theorem empty_batch_reaches_notification :
    (reservationStep NewInventoryActor emptySeatRequest 0).toPayment = some [] ∧
    notificationFirstUser (paymentStep []) = none :=
  ⟨by decide, rfl⟩

end SeatMap
